import Mathlib

/-!
Verification of the tattle cluster-membership core (a SWIM-style gossip
protocol) against its natural-language specification.

The development shallowly embeds the relevant parts of the Python source
(`tattle/state.py`, `tattle/cluster.py`, `tattle/timer.py`) as Lean
definitions:

* Python dictionaries become association lists, Python lists become `List`.
* Machine integers become `Int`/`Nat`; Python floats become `Rat`, with the
  transcendental `math.log10` kept abstract as a function parameter
  `log10 : Rat → Rat` (claims about the timeout formulas compare the code
  and the specification with the same abstract `log10`).
* Randomness (`random.choice`, `random.randint`) becomes an explicit
  oracle argument (a chosen index, respectively a stream of chosen
  elements).
* Fallible code returns `Except String` carrying the Python exception
  name; async handlers become pure state transformers
  `NodeManager → Except String (NodeManager × List Effect)` where
  `Effect` records the broadcasts pushed on the gossip queue and the
  events emitted on the event bus (the `tattle.queue` and `tattle.event`
  modules are not part of the analysed sources, so their interaction is
  recorded as effects instead of being interpreted).
* Object identity checks (`current_node is self.local_node`) become name
  comparisons, which is exact because `_nodes_map` holds at most one node
  object per name.
* The `_nodes_map` dictionary of `NodeManager` always holds exactly the
  nodes of the `_nodes` list (the single insertion site in
  `on_node_alive` inserts into both, and nodes are never removed), so the
  embedding keeps the single list `nodes` and models a map lookup as
  `List.find?` by name.
* Fields of `Node` that only matter for I/O (`read_stream`,
  `write_stream`, `_loop`, `_status_change_timestamp`) are omitted; no
  claim mentions them.
-/

/-! ## Status constants (state.py lines 20-22) -/

def NODE_STATUS_ALIVE : String := "ALIVE"

def NODE_STATUS_SUSPECT : String := "SUSPECT"

def NODE_STATUS_DEAD : String := "DEAD"

/-! ## Basic data -/

/-- Metadata dictionaries (`dict` of string keys to opaque values in the
source) are modelled as association lists with string values. -/
abbrev Metadata := List (String × String)

/-- Python dict union `a | b`: every key of either dict, values of `b`
winning on common keys. -/
def dictMerge (a b : Metadata) : Metadata :=
  a.filter (fun p => !(b.map Prod.fst).contains p.1) ++ b

/-- An internet address as carried in messages (`messages.InternetAddress`). -/
structure Address where
  host : String
  port : Int
deriving DecidableEq

/-- Membership record for one process (`state.py`, class `Node`).
`Node.__init__` defaults: `incarnation=0`, `status=NODE_STATUS_DEAD`,
`version = 1`, empty metadata. -/
structure Node where
  name : String
  host : String
  port : Int
  incarnation : Int
  version : Int
  metadata : Metadata
  status : String
deriving DecidableEq

/-- `Node(name, host, port)` as constructed at the discovery site in
`on_node_alive` (state.py line 230). -/
def Node.new (name host : String) (port : Int) : Node :=
  { name := name, host := host, port := port, incarnation := 0,
    version := 1, metadata := [], status := NODE_STATUS_DEAD }

/-- Auxiliary suspicion state (state.py line 141, namedtuple
`SuspectNode`).  The `timer` field of the namedtuple is represented by
the duration the `Timer` was armed with; firing of the timer is a
separate transition (`onSuspectTimerExpiry`). -/
structure SuspectNode where
  timerTimeout : Rat
  k : Int
  min_timeout : Rat
  max_timeout : Rat
  confirmations : List String
deriving DecidableEq

/-- The slice of `tattle.config.Configuration` the embedded handlers
read, together with `log10`, the abstract model of `math.log10` on
floats (floats are modelled as rationals). -/
structure Config where
  suspicion_min_timeout_multi : Int
  suspicion_max_timeout_multi : Int
  probe_interval : Rat
  log10 : Rat → Rat

/-- Broadcasts pushed on the gossip queue and events emitted on the event
bus by the `NodeManager` handlers. -/
inductive Effect where
  | broadcastAlive (node : String) (host : String) (port : Int)
      (incarnation : Int) (metadata : Metadata)
  | broadcastSuspect (node : String) (incarnation : Int) (sender : String)
  | broadcastDead (node : String) (incarnation : Int) (sender : String)
  | emit (eventName : String) (node : String)
deriving DecidableEq

/-! ## Suspicion timeout arithmetic (state.py lines 27-65) -/

/-- `_calculate_suspicion_timeout(n, interval)` (state.py line 27):
`scale = max(1, math.log10(max(1, n)))`, result `scale * interval`. -/
def _calculate_suspicion_timeout (log10 : Rat → Rat) (n : Int) (interval : Rat) : Rat :=
  max 1 (log10 (max 1 (n : Rat))) * interval

/-- `_calculate_expected_confirmations(n, multi)` (state.py line 55):
`k = multi - 2; if n - 2 < k: k = 0; return k`.  Note there is no
`max(0, ...)`: for `multi < 2` and `n ≥ multi` the result is negative. -/
def _calculate_expected_confirmations (n multi : Int) : Int :=
  let k := multi - 2
  if n - 2 < k then 0 else k

/-- The values computed by `NodeManager._create_suspect_node`
(state.py lines 406-427) for cluster size `n` and stored in the
`SuspectNode` record: expected confirmations `k`, `min_timeout`,
`max_timeout`, and the initial timer duration
(`max_timeout` when `k < 1`, else `min_timeout`).
`confirmations` starts as an empty dict. -/
def suspectTimerParams (cfg : Config) (n : Int) : SuspectNode :=
  let k := _calculate_expected_confirmations n cfg.suspicion_min_timeout_multi
  let min_timeout :=
    (cfg.suspicion_min_timeout_multi : Rat) *
      _calculate_suspicion_timeout cfg.log10 n cfg.probe_interval
  let max_timeout := (cfg.suspicion_max_timeout_multi : Rat) * min_timeout
  let timeout := if k < 1 then max_timeout else min_timeout
  { timerTimeout := timeout, k := k, min_timeout := min_timeout,
    max_timeout := max_timeout, confirmations := [] }

/-! Specification-side formulas for claim C5, written from the words of
the spec (section 4.5.1) for comparison with the code-side definitions
above. -/

/-- Spec side: `k = max(0, suspicionMinMulti − 2), clamped to 0 when
n − 2 < k`. -/
def spec_expected_confirmations (n multi : Int) : Int :=
  let k := max 0 (multi - 2)
  if n - 2 < k then 0 else k

/-- Spec side: `minTimeout = suspicionMinMulti · max(1, log10(max(1,n))) · probeInterval`. -/
def spec_min_timeout (log10 : Rat → Rat) (n multi : Int) (interval : Rat) : Rat :=
  (multi : Rat) * (max 1 (log10 (max 1 (n : Rat))) * interval)

/-- Spec side: `maxTimeout = suspicionMaxMulti · minTimeout`. -/
def spec_max_timeout (log10 : Rat → Rat) (n minMulti maxMulti : Int) (interval : Rat) : Rat :=
  (maxMulti : Rat) * spec_min_timeout log10 n minMulti interval

/-! ## The NodeManager state (state.py, class NodeManager) -/

/-- The mutable state of `NodeManager` (state.py lines 149-169).
`_nodes_map` is represented implicitly (lookup = `find?` by name, see
the header comment); `_local_node_seq` is the counter of the
`tattle.sequence.Sequence` object.  Modelled from the spec (section
4.1), `Sequence` being outside the analysed sources: a monotonically
increasing counter starting at 0 whose `increment()` returns the next
value. -/
structure NodeManager where
  nodes : List Node
  suspect_nodes : List (String × SuspectNode)
  local_node_name : Option String
  local_node_seq : Int
  leaving : Bool
deriving DecidableEq

/-- Lookup `self._nodes_map.get(name)`. -/
def NodeManager.findNode (nm : NodeManager) (name : String) : Option Node :=
  nm.nodes.find? (fun node => node.name == name)

/-- `self.local_node` (state.py line 190): `self._nodes_map.get(self._local_node_name)`. -/
def NodeManager.localNode (nm : NodeManager) : Option Node :=
  match nm.local_node_name with
  | some n => nm.findNode n
  | none => none

/-- Replace every node named `name` (at most one, names being unique)
with `f` of it.  Models mutating the shared `Node` object that both
`_nodes` and `_nodes_map` reference. -/
def NodeManager.updateNode (nm : NodeManager) (name : String) (f : Node → Node) : NodeManager :=
  { nm with nodes := nm.nodes.map (fun node => if node.name == name then f node else node) }

/-- `_swap_random_nodes` (state.py lines 183-188): swap the node at the
random index `i` (drawn by `random.randint(0, len-1)`, passed here as an
oracle argument) with the last node.  Out-of-range `i` cannot be drawn;
the embedding leaves the list unchanged in that case. -/
def swapNodes (l : List Node) (i : Nat) : List Node :=
  match l.get? i, l.get? (l.length - 1) with
  | some a, some b => (l.set i b).set (l.length - 1) a
  | _, _ => l

/-- `_cancel_suspect_node` (state.py lines 432-440): stops the timer and
deletes the entry; `self._suspect_nodes[node.name]` raises `KeyError`
when the name is absent. -/
def NodeManager.cancelSuspectNode (nm : NodeManager) (name : String) :
    Except String NodeManager :=
  match nm.suspect_nodes.lookup name with
  | some _ =>
      .ok { nm with suspect_nodes := nm.suspect_nodes.filter (fun p => !(p.1 == name)) }
  | none => .error "KeyError"

/-- `_create_suspect_node` (state.py lines 396-430): no-op when a record
for the name already exists; otherwise computes the suspicion parameters
from the current cluster size, stores the record and starts the timer
(firing is the separate transition `onSuspectTimerExpiry`). -/
def NodeManager.createSuspectNode (cfg : Config) (nm : NodeManager) (name : String) :
    NodeManager :=
  if (nm.suspect_nodes.lookup name).isSome then nm
  else
    { nm with suspect_nodes :=
        nm.suspect_nodes ++ [(name, suspectTimerParams cfg (nm.nodes.length : Int))] }

/-- `_refute` (state.py lines 464-471): sets the local node incarnation
to `self._local_node_seq.increment()` and broadcasts ALIVE about it.
`self.local_node.name` raises `AttributeError` when there is no local
node. -/
def NodeManager.refute (nm : NodeManager) : Except String (NodeManager × List Effect) :=
  match nm.localNode with
  | none => .error "AttributeError"
  | some ln =>
      let newSeq := nm.local_node_seq + 1
      let updated := { ln with incarnation := newSeq }
      let nm2 := ({ nm with local_node_seq := newSeq }).updateNode ln.name (fun _ => updated)
      .ok (nm2, [Effect.broadcastAlive updated.name updated.host updated.port
                  updated.incarnation updated.metadata])

/-- Name of `self.local_node` for the SUSPECT/DEAD broadcasts
(state.py lines 456 and 461); `AttributeError` when there is none. -/
def NodeManager.localNodeNameForBroadcast (nm : NodeManager) : Except String String :=
  match nm.localNode with
  | some ln => .ok ln.name
  | none => .error "AttributeError"

/-- `NodeManager.on_node_alive` (state.py lines 211-283).  `randIdx` is
the index drawn by `_swap_random_nodes` when a new node is created.  The
`bootstrap` parameter exists in the source signature but is never read
by the body. -/
def on_node_alive (nm : NodeManager) (randIdx : Nat) (name : String)
    (incarnation : Int) (host : String) (port : Int) (metadata : Metadata)
    (_bootstrap : Bool) : Except String (NodeManager × List Effect) :=
  -- current_node = self._nodes_map.get(name); when absent create the node,
  -- append it and swap it with a random node
  let nm1 :=
    if (nm.findNode name).isNone then
      { nm with nodes := swapNodes (nm.nodes ++ [Node.new name host port]) randIdx }
    else nm
  match nm1.findNode name with
  | none => .error "unreachable"
  | some current =>
    -- return if conflicting node address
    if current.host ≠ host ∨ current.port ≠ port then .ok (nm1, [])
    else
      -- is_local_node = current_node is self.local_node
      let is_local := nm1.local_node_name = some name
      -- non-local: return when incarnation <= current
      if ¬ is_local ∧ incarnation ≤ current.incarnation then .ok (nm1, [])
      -- local: return when incarnation < current
      else if is_local ∧ incarnation < current.incarnation then .ok (nm1, [])
      else
        -- if the node is suspect, alive cancels the suspicion
        match (if current.status == NODE_STATUS_SUSPECT
               then nm1.cancelSuspectNode name else .ok nm1) with
        | .error e => .error e
        | .ok nm2 =>
          let old_status := current.status
          let updated := { current with
                             incarnation := incarnation
                             status := NODE_STATUS_ALIVE
                             metadata := dictMerge current.metadata metadata }
          let nm3 := nm2.updateNode name (fun _ => updated)
          let effs := [Effect.broadcastAlive updated.name updated.host updated.port
                        updated.incarnation updated.metadata]
          let effs := if old_status ≠ NODE_STATUS_ALIVE
                      then effs ++ [Effect.emit "node.alive" name] else effs
          .ok (nm3, effs)

/-- `NodeManager.on_node_suspect` (state.py lines 335-390). -/
def on_node_suspect (cfg : Config) (nm : NodeManager) (name : String)
    (incarnation : Int) (metadata : Metadata) :
    Except String (NodeManager × List Effect) :=
  match nm.findNode name with
  | none => .ok (nm, [])                                   -- unknown node: ignore
  | some current =>
    if current.status == NODE_STATUS_DEAD then .ok (nm, [])  -- ignore DEAD node
    else if incarnation < current.incarnation then .ok (nm, [])  -- stale
    else if nm.local_node_name = some name then nm.refute  -- refute, return
    else
      -- (already-SUSPECT branch is a TODO pass in the source)
      let old_status := current.status
      let updated := { current with
                         incarnation := incarnation
                         status := NODE_STATUS_SUSPECT }
      let nm2 := nm.updateNode name (fun _ => updated)
      let nm3 := nm2.createSuspectNode cfg name
      let updated2 := { updated with metadata := dictMerge current.metadata metadata }
      let nm4 := nm3.updateNode name (fun _ => updated2)
      match nm4.localNodeNameForBroadcast with
      | .error e => .error e
      | .ok sender =>
        let effs := [Effect.broadcastSuspect name incarnation sender]
        let effs := if old_status ≠ NODE_STATUS_SUSPECT
                    then effs ++ [Effect.emit "node.suspect" name] else effs
        .ok (nm4, effs)

/-- `NodeManager.on_node_dead` (state.py lines 285-333). -/
def on_node_dead (nm : NodeManager) (name : String) (incarnation : Int) :
    Except String (NodeManager × List Effect) :=
  match nm.findNode name with
  | none => .ok (nm, [])                                   -- unknown node: ignore
  | some current =>
    if current.status == NODE_STATUS_DEAD then .ok (nm, [])  -- ignore DEAD node
    else if incarnation < current.incarnation then .ok (nm, [])  -- stale
    else if nm.local_node_name = some name ∧ ¬ nm.leaving then nm.refute
    else
      match (if current.status == NODE_STATUS_SUSPECT
             then nm.cancelSuspectNode name else .ok nm) with
      | .error e => .error e
      | .ok nm2 =>
        let old_status := current.status
        let updated := { current with
                           incarnation := incarnation
                           status := NODE_STATUS_DEAD }
        let nm3 := nm2.updateNode name (fun _ => updated)
        match nm3.localNodeNameForBroadcast with
        | .error e => .error e
        | .ok sender =>
          let effs := [Effect.broadcastDead name incarnation sender]
          let effs := if old_status ≠ NODE_STATUS_DEAD
                      then effs ++ [Effect.emit "node.dead" name] else effs
          .ok (nm3, effs)

/-- `_handle_suspect_timer` inside `_create_suspect_node` (state.py
lines 398-400): when the suspicion timer for `name` fires it calls
`on_node_dead(node.name, node.incarnation)` with the incarnation the
node object has at firing time.  The node object always exists (nodes
are never removed); the `none` branch is unreachable. -/
def onSuspectTimerExpiry (nm : NodeManager) (name : String) :
    Except String (NodeManager × List Effect) :=
  match nm.findNode name with
  | some node => on_node_dead nm name node.incarnation
  | none => .ok (nm, [])

/-! ## Probe handling (cluster.py lines 340-470) -/

/-- Outcome of awaiting a probe waiter: `asyncio.TimeoutError`, or
resolution of the future (`True` by an ACK, `False` by a NACK). -/
inductive ProbeWaitOutcome where
  | timeout
  | resolved (result : Bool)
deriving DecidableEq

/-- `Cluster._handle_probe_timeout` (cluster.py lines 392-396).  The
source runs `self._nodes.on_node_suspect(node.name, node.incarnation)`
passing two arguments, but `NodeManager.on_node_suspect` (state.py line
335) has three required parameters `(name, incarnation, metadata)` and
no default for `metadata`, so Python raises `TypeError` before the
handler body runs and the node is never marked SUSPECT. -/
def _handle_probe_timeout (_nm : NodeManager) (_node : Node) :
    Except String (NodeManager × List Effect) :=
  .error "TypeError: on_node_suspect missing 1 required positional argument: metadata"

/-- `Cluster._handle_probe_result` (cluster.py lines 377-390).  On a
successful result for a SUSPECT node the source runs
`self._nodes.on_node_alive(node.name, node.incarnation, node.host, node.port)`
without the required `metadata` argument, a `TypeError`; on a failed
result (NACK) it runs `raise NotImplementedError()`. -/
def _handle_probe_result (nm : NodeManager) (node : Node) (result : Bool) :
    Except String (NodeManager × List Effect) :=
  if result then
    if node.status == NODE_STATUS_SUSPECT then
      .error "TypeError: on_node_alive missing 1 required positional argument: metadata"
    else .ok (nm, [])
  else .error "NotImplementedError"

/-- The tail of `Cluster._probe_node` (cluster.py lines 358-375) after
the PING has been sent and the waiter has been awaited: dispatch on the
outcome, and afterwards start the indirect probe when `result` is falsy
(the returned `Bool` records whether `_probe_node_indirect` is reached).
Exceptions raised by the two handlers propagate out of `_probe_node`
uncaught, skipping the indirect probe. -/
def _probe_node_resume (nm : NodeManager) (target : Node)
    (outcome : ProbeWaitOutcome) : Except String (NodeManager × List Effect × Bool) :=
  match outcome with
  | .timeout =>
      match _handle_probe_timeout nm target with
      | .error e => .error e
      | .ok (nm2, effs) => .ok (nm2, effs, true)
  | .resolved r =>
      match _handle_probe_result nm target r with
      | .error e => .error e
      | .ok (nm2, effs) => if r then .ok (nm2, effs, false) else .ok (nm2, effs, true)

/-! ## UDP messages and the PING-REQ relay (cluster.py lines 812-889) -/

/-- The UDP message kinds the relay path sends. -/
inductive UdpMessage where
  | ping (seq : Int) (target : String) (sender : String) (senderAddr : Address)
  | ack (seq : Int) (sender : String)
  | nack (seq : Int) (sender : String)
deriving DecidableEq

/-- A datagram passed to `_send_udp_message(host, port, msg)`. -/
structure SentDatagram where
  host : String
  port : Int
  msg : UdpMessage
deriving DecidableEq

/-- `messages.PingRequestMessage` as read by the relay: original `seq`,
target name `node`, target address `node_addr`, and the original
sender with its address. -/
structure PingRequestMessage where
  seq : Int
  node : String
  node_addr : Address
  sender : String
  sender_addr : Address
deriving DecidableEq

/-- `Cluster._forward_indirect_probe_result` (cluster.py lines 879-883):
forward an ACK carrying the original `msg.seq` to the original sender. -/
def _forward_indirect_probe_result (localName : String) (msg : PingRequestMessage) :
    SentDatagram :=
  { host := msg.sender_addr.host, port := msg.sender_addr.port,
    msg := UdpMessage.ack msg.seq localName }

/-- `Cluster._forward_indirect_probe_timeout` (cluster.py lines 885-889):
forward a NACK carrying the original `msg.seq` to the original sender.
Defined in the source but never called (its only call site, in
`_handle_ping_request_message`, is commented out). -/
def _forward_indirect_probe_timeout (localName : String) (msg : PingRequestMessage) :
    SentDatagram :=
  { host := msg.sender_addr.host, port := msg.sender_addr.port,
    msg := UdpMessage.nack msg.seq localName }

/-- `Cluster._handle_ping_request_message` (cluster.py lines 826-853).
`probeSeq` is the current value of the probe `Sequence` counter
(modelled from the spec, section 4.1: `increment()` yields the next
value), `outcome` the result of awaiting the freshly registered waiter.
Returns the sequence number the waiter was registered under and the
datagrams sent.  On success the relay forwards
`_forward_indirect_probe_result` (an ACK under the original seq); on
timeout the source only logs — the NACK forward is commented out behind
a `TODO: send nack` comment — so nothing further is sent. -/
def _handle_ping_request_message (localName : String) (localAddr : Address)
    (probeSeq : Int) (msg : PingRequestMessage) (outcome : ProbeWaitOutcome) :
    Int × List SentDatagram :=
  let next_seq := probeSeq + 1
  let pingOut : SentDatagram :=
    { host := msg.node_addr.host, port := msg.node_addr.port,
      msg := UdpMessage.ping next_seq msg.node localName localAddr }
  match outcome with
  | .timeout => (next_seq, [pingOut])
  | .resolved _ => (next_seq, [pingOut, _forward_indirect_probe_result localName msg])

/-! ## Merging remote state received via SYNC (cluster.py lines 472-497) -/

/-- A `messages.RemoteNodeState` entry of a SYNC message. -/
structure RemoteNodeState where
  node : String
  addr : Address
  version : Int
  incarnation : Int
  status : String
  metadata : Metadata
deriving DecidableEq

/-- The `NodeManager` handler a remote entry is routed to, with the
arguments it receives. -/
inductive NodeCall where
  | onNodeAlive (name : String) (incarnation : Int) (host : String)
      (port : Int) (metadata : Metadata)
  | onNodeSuspect (name : String) (incarnation : Int) (metadata : Metadata)
  | onNodeDead (name : String) (incarnation : Int)
deriving DecidableEq

/-- `Cluster._merge_remote_state` (cluster.py lines 472-497): route an
entry by its status string; DEAD entries are deliberately downgraded to
the suspect pathway; unknown statuses are logged and dropped. -/
def _merge_remote_state (rs : RemoteNodeState) : Option NodeCall :=
  if rs.status = NODE_STATUS_ALIVE then
    some (NodeCall.onNodeAlive rs.node rs.incarnation rs.addr.host rs.addr.port rs.metadata)
  else if rs.status = NODE_STATUS_SUSPECT then
    some (NodeCall.onNodeSuspect rs.node rs.incarnation rs.metadata)
  else if rs.status = NODE_STATUS_DEAD then
    some (NodeCall.onNodeSuspect rs.node rs.incarnation rs.metadata)
  else none

/-! ## Outgoing datagrams and piggy-backed gossip (cluster.py lines 28-30, 900-921) -/

/-- Exact value of `math.ceil(math.log10 m)` for a positive integer `m`:
the least `e` with `m ≤ 10 ^ e` (and `0` for `m ≤ 1`).  This models the
float computation by its exact mathematical value. -/
def ceilLog10 (m : Nat) : Nat :=
  if m ≤ 1 then 0 else Nat.log 10 (m - 1) + 1

/-- `_calculate_transmit_limit(n, m)` (cluster.py lines 28-30):
`ceil(log10(n + 1)) * m`. -/
def _calculate_transmit_limit (n m : Nat) : Nat :=
  ceilLog10 (n + 1) * m

/-- `Cluster._send_udp_message` (cluster.py lines 900-921), with the
encoded primary payload `buf` given as a byte list and the
`BroadcastQueue.fetch` of the (out-of-scope) `tattle.queue` module as an
abstract parameter.  Returns the datagram finally passed to `sendto`
together with the two limits handed to `fetch`. -/
def _send_udp_message (n retransmit_multi : Nat)
    (fetch : Nat → Int → List (List Nat)) (buf : List Nat) :
    List Nat × Nat × Int :=
  let max_transmits := _calculate_transmit_limit n retransmit_multi
  let max_bytes : Int := 512 - (buf.length : Int)
  let gossip := fetch max_transmits max_bytes
  (buf ++ gossip.flatten, max_transmits, max_bytes)

/-! Specification-side formulas for claim C6 (spec section 4.6,
"Piggy-backed gossip"). -/

/-- Spec side: `maxTransmits = ceil(log10(n+1)) · retransmitMulti`. -/
def spec_max_transmits (n retransmitMulti : Nat) : Nat :=
  ceilLog10 (n + 1) * retransmitMulti

/-- Spec side: `maxBytes = 512 − len(primaryPayload)`. -/
def spec_max_bytes (primaryLen : Nat) : Int :=
  512 - (primaryLen : Int)

/-! ## Timer (timer.py) -/

/-- State of a `Timer` object (timer.py): the armed duration `time`, the
`_handle` returned by `loop.call_later` (`some` while one exists), and
`_started`, the wall-clock instant `start` was called. -/
structure Timer where
  time : Rat
  handle : Option Unit
  started : Option Rat
deriving DecidableEq

/-- `Timer.__init__(callback, time)`. -/
def Timer.init (d : Rat) : Timer :=
  { time := d, handle := none, started := none }

/-- `Timer.start` (timer.py lines 21-24): `assert self._handle is None`,
then record the start instant and schedule the callback. -/
def Timer.start (t : Timer) (now : Rat) : Except String Timer :=
  if t.handle.isSome then .error "AssertionError"
  else .ok { t with handle := some (), started := some now }

/-- `Timer.stop` (timer.py lines 37-40): cancel a pending handle, set
`_handle = None`; idempotent. -/
def Timer.stop (t : Timer) : Timer :=
  { t with handle := none }

/-- `Timer.reset` (timer.py lines 26-29): `stop()`, set the new
duration, `start()`. -/
def Timer.reset (t : Timer) (d : Rat) (now : Rat) : Except String Timer :=
  Timer.start { t.stop with time := d } now

/-! ## select_random_nodes (state.py lines 68-86) -/

/-- The loop of `select_random_nodes`.  `pick c` is the element
`random.choice(nodes)` returns in the iteration whose entry counter is
`c`; `len` is `len(nodes)`; `k` is already clamped to `min(k, len)`.
Returns the selection together with the number of loop iterations
executed. -/
def select_random_nodes_go {α : Type} [DecidableEq α] (pick : Nat → α)
    (pred : Option (α → Bool)) (len k : Nat) (c : Nat) (selected : List α) :
    List α × Nat :=
  if h : selected.length < k ∧ c ≤ 3 * len then
    let node := pick c
    let next :=
      if selected.contains node then selected
      else
        match pred with
        | some p => if p node then selected ++ [node] else selected
        | none => selected ++ [node]
    let r := select_random_nodes_go pick pred len k (c + 1) next
    (r.1, r.2 + 1)
  else (selected, 0)
termination_by 3 * len + 1 - c
decreasing_by
  exact Nat.sub_lt_sub_left (Nat.lt_succ_of_le (by omega)) (Nat.lt_succ_self c)

/-- `select_random_nodes(k, nodes, predicate)` (state.py lines 68-86),
with the random choices supplied by the oracle `pick`.  The `.1`
component is the returned list, the `.2` component counts the loop
iterations. -/
def select_random_nodes {α : Type} [DecidableEq α] (k : Nat) (nodes : List α)
    (pred : Option (α → Bool)) (pick : Nat → α) : List α × Nat :=
  select_random_nodes_go pick pred nodes.length (min k nodes.length) 0 []

/-! ## Supporting lemmas -/

/-- `ceilLog10` upper characterization: `m ≤ 10 ^ ceilLog10 m`. -/
theorem ceilLog10_le_pow (m : Nat) : m ≤ 10 ^ ceilLog10 m := by
  unfold ceilLog10
  split
  · simpa using (by assumption : m ≤ 1)
  · rename_i h
    have h2 : 2 ≤ m := by omega
    have h10 : 1 < 10 := by norm_num
    have := Nat.lt_pow_succ_log_self h10 (m - 1)
    omega

/-- `ceilLog10` is the least such exponent: it is the exact value of
`ceil(log10 m)` for `m ≥ 1`. -/
theorem ceilLog10_least (m e : Nat) (h : m ≤ 10 ^ e) : ceilLog10 m ≤ e := by
  unfold ceilLog10
  split
  · exact Nat.zero_le e
  · rename_i hm
    have h2 : 2 ≤ m := by omega
    have hne : m - 1 ≠ 0 := by omega
    have hlt : m - 1 < 10 ^ e := by omega
    have := Nat.log_lt_of_lt_pow hne hlt
    omega

/-! ## Claim C5 -/

/-- C5 counterexample: with `suspicionMinMulti = 1` and cluster size
`n = 3`, the code stores `k = −1` in the `SuspectNode` record whereas
the claim's formula `max(0, suspicionMinMulti − 2)` (clamped) gives `0`. -/
theorem C5_counterexample :
    (suspectTimerParams
      { suspicion_min_timeout_multi := 1, suspicion_max_timeout_multi := 3,
        probe_interval := 1, log10 := fun _ => 0 } 3).k = -1 ∧
    spec_expected_confirmations 3 1 = 0 ∧
    ((suspectTimerParams
      { suspicion_min_timeout_multi := 1, suspicion_max_timeout_multi := 3,
        probe_interval := 1, log10 := fun _ => 0 } 3).k ==
      spec_expected_confirmations 3 1) = false := by
  refine ⟨rfl, rfl, ?_⟩
  decide

/-- C5 (amended): on entry to SUSPECT the code computes
`k = suspicionMinMulti − 2` set to `0` when `n − 2 < k` (without the
`max(0,·)` of the claim, so `k` may be negative), and stores
`minTimeout = suspicionMinMulti · max(1, log10(max(1,n))) · probeInterval`,
`maxTimeout = suspicionMaxMulti · minTimeout`, and an initial firing
timeout of `maxTimeout` when `k < 1` and `minTimeout` otherwise; the
sign of `k − 1` agrees with the claim's clamped `k`, so the timeout
selection is as the claim states it. -/
theorem C5_suspicion_timing (cfg : Config) (n : Int) :
    (suspectTimerParams cfg n =
      { timerTimeout :=
          if _calculate_expected_confirmations n cfg.suspicion_min_timeout_multi < 1
          then spec_max_timeout cfg.log10 n cfg.suspicion_min_timeout_multi
                 cfg.suspicion_max_timeout_multi cfg.probe_interval
          else spec_min_timeout cfg.log10 n cfg.suspicion_min_timeout_multi
                 cfg.probe_interval
        k := _calculate_expected_confirmations n cfg.suspicion_min_timeout_multi
        min_timeout := spec_min_timeout cfg.log10 n cfg.suspicion_min_timeout_multi
                         cfg.probe_interval
        max_timeout := spec_max_timeout cfg.log10 n cfg.suspicion_min_timeout_multi
                         cfg.suspicion_max_timeout_multi cfg.probe_interval
        confirmations := [] }) ∧
    ((suspectTimerParams cfg n).k < 1 ↔
      spec_expected_confirmations n cfg.suspicion_min_timeout_multi < 1) := by
  constructor
  · rfl
  · show _calculate_expected_confirmations n cfg.suspicion_min_timeout_multi < 1 ↔ _
    unfold _calculate_expected_confirmations spec_expected_confirmations
    dsimp only
    rcases le_total 0 (cfg.suspicion_min_timeout_multi - 2) with h | h
    · rw [max_eq_right h]
    · rw [max_eq_left h]
      split_ifs <;> omega

/-! ## Claim C6 -/

/-- C6: for every outgoing UDP datagram the gossip fetch limits are
`maxTransmits = ceil(log10(n+1)) · retransmitMulti` and
`maxBytes = 512 − len(primaryPayload)`, and the fetched gossip payloads
are appended after the primary payload in the same datagram. -/
theorem C6_send_udp_gossip (n m : Nat) (fetch : Nat → Int → List (List Nat))
    (buf : List Nat) :
    _send_udp_message n m fetch buf =
      (buf ++ (fetch (spec_max_transmits n m) (spec_max_bytes buf.length)).flatten,
       spec_max_transmits n m, spec_max_bytes buf.length) := rfl

/-! ## Claim C7 -/

/-- C7: merging a remote SYNC entry routes ALIVE entries to
`onNodeAlive`, SUSPECT entries to `onNodeSuspect`, and DEAD entries are
downgraded and routed to `onNodeSuspect`; no entry is ever routed to
`onNodeDead`. -/
theorem C7_merge_remote_state_routing :
    (∀ (node : String) (addr : Address) (v inc : Int) (md : Metadata),
      _merge_remote_state
        { node := node, addr := addr, version := v, incarnation := inc,
          status := NODE_STATUS_ALIVE, metadata := md } =
        some (NodeCall.onNodeAlive node inc addr.host addr.port md)) ∧
    (∀ (node : String) (addr : Address) (v inc : Int) (md : Metadata),
      _merge_remote_state
        { node := node, addr := addr, version := v, incarnation := inc,
          status := NODE_STATUS_SUSPECT, metadata := md } =
        some (NodeCall.onNodeSuspect node inc md)) ∧
    (∀ (node : String) (addr : Address) (v inc : Int) (md : Metadata),
      _merge_remote_state
        { node := node, addr := addr, version := v, incarnation := inc,
          status := NODE_STATUS_DEAD, metadata := md } =
        some (NodeCall.onNodeSuspect node inc md)) ∧
    (∀ (rs : RemoteNodeState) (name : String) (inc : Int),
      _merge_remote_state rs ≠ some (NodeCall.onNodeDead name inc)) := by
  refine ⟨fun node addr v inc md => rfl, fun node addr v inc md => ?_,
          fun node addr v inc md => ?_, fun rs name inc h => ?_⟩
  · simp [_merge_remote_state, NODE_STATUS_SUSPECT, NODE_STATUS_ALIVE]
  · simp [_merge_remote_state, NODE_STATUS_DEAD, NODE_STATUS_ALIVE, NODE_STATUS_SUSPECT]
  · unfold _merge_remote_state at h
    split_ifs at h <;> simp at h

/-! ## Claim C8 -/

/-- C8 counterexample: after `start()` followed by `stop()`, a second
call to `start()` on the same Timer instance succeeds, refuting the
claim that every second call of `start()` fails the assertion. -/
theorem C8_counterexample :
    (((Timer.init 5).start 0).map Timer.stop).bind (fun t => t.start 1) =
      Except.ok { time := 5, handle := some (), started := some 1 } := rfl

/-- C8 (amended): `start()` asserts that no scheduled handle is pending
(`assert self._handle is None`): it fails the assertion exactly when a
handle is pending, and in particular a second `start()` with no
intervening `stop()`/`reset()` always fails the assertion. -/
theorem C8_start_assertion (t : Timer) (now now2 : Rat) :
    (t.start now = Except.error "AssertionError" ↔ t.handle.isSome = true) ∧
    (t.start now).bind (fun u => u.start now2) = Except.error "AssertionError" := by
  constructor
  · unfold Timer.start
    by_cases h : t.handle.isSome <;> simp [h]
  · unfold Timer.start
    by_cases h : t.handle.isSome <;> simp [h, Except.bind]

/-! ## Claim C1 -/

/-- C1: evidence for the code bug.  When the direct probe of a target
times out, `_probe_node` does not reach
`onNodeSuspect(target.name, target.incarnation, {})`: the call site
passes only two arguments to the three-parameter handler, so the path
raises `TypeError`, aborting before the node is marked SUSPECT and
before indirect probing starts; when the probe is answered by an
explicit NACK the path raises `NotImplementedError`, likewise skipping
both actions. -/
theorem C1_probe_failure_behavior (nm : NodeManager) (target : Node) :
    _probe_node_resume nm target ProbeWaitOutcome.timeout =
      Except.error "TypeError: on_node_suspect missing 1 required positional argument: metadata" ∧
    _probe_node_resume nm target (ProbeWaitOutcome.resolved false) =
      Except.error "NotImplementedError" := ⟨rfl, rfl⟩

/-! ## Claim C4 -/

/-- C4: evidence for the code bug.  On a PING-REQ the relay allocates a
fresh sequence number, registers a waiter under it, and sends a PING to
the target address; when its wait resolves it forwards an ACK carrying
the original PING-REQ seq to the original sender — but when its wait
times out it sends nothing (`_forward_indirect_probe_timeout` exists but
its only call site is commented out behind a TODO), contradicting the
claim that a NACK with the original seq is forwarded. -/
theorem C4_ping_request_relay (localName : String) (localAddr : Address)
    (probeSeq : Int) (msg : PingRequestMessage) :
    _handle_ping_request_message localName localAddr probeSeq msg
        (ProbeWaitOutcome.resolved true) =
      (probeSeq + 1,
       [{ host := msg.node_addr.host, port := msg.node_addr.port,
          msg := UdpMessage.ping (probeSeq + 1) msg.node localName localAddr },
        { host := msg.sender_addr.host, port := msg.sender_addr.port,
          msg := UdpMessage.ack msg.seq localName }]) ∧
    _handle_ping_request_message localName localAddr probeSeq msg
        ProbeWaitOutcome.timeout =
      (probeSeq + 1,
       [{ host := msg.node_addr.host, port := msg.node_addr.port,
          msg := UdpMessage.ping (probeSeq + 1) msg.node localName localAddr }]) :=
  ⟨rfl, rfl⟩

/-! ## Permutation lemmas for `swapNodes` -/

theorem get_cons_set_perm {α : Type} (xs : List α) (k : Nat) (hk : k < xs.length) (x : α) :
    (xs[k] :: xs.set k x).Perm (x :: xs) := by
  induction xs generalizing k with
  | nil => simp at hk
  | cons y ys ih =>
    cases k with
    | zero =>
      simpa using List.Perm.swap x y ys
    | succ m =>
      have hm : m < ys.length := by simpa using hk
      have step1 := List.Perm.swap y ys[m] (ys.set m x)
      have step2 := (ih m hm).cons y
      have step3 := List.Perm.swap x y ys
      simpa using step1.trans (step2.trans step3)

theorem set_set_perm {α : Type} (l : List α) (i j : Nat) (hi : i < l.length)
    (hj : j < l.length) : ((l.set i l[j]).set j l[i]).Perm l := by
  induction l generalizing i j with
  | nil => simp at hi
  | cons x xs ih =>
    cases i with
    | zero =>
      cases j with
      | zero => simp
      | succ m =>
        have hm : m < xs.length := by simpa using hj
        simpa using get_cons_set_perm xs m hm x
    | succ n =>
      have hn : n < xs.length := by simpa using hi
      cases j with
      | zero => simpa using get_cons_set_perm xs n hn x
      | succ m =>
        have hm : m < xs.length := by simpa using hj
        simpa using (ih n m hn hm).cons x

theorem swapNodes_perm (l : List Node) (i : Nat) : (swapNodes l i).Perm l := by
  unfold swapNodes
  split
  · rename_i a b ha hb
    have hi : i < l.length := (List.get?_eq_some.mp ha).1
    have hj : l.length - 1 < l.length := (List.get?_eq_some.mp hb).1
    have ha2 : l[i] = a := (List.get?_eq_some.mp ha).2
    have hb2 : l[l.length - 1] = b := (List.get?_eq_some.mp hb).2
    rw [← ha2, ← hb2]
    exact set_set_perm l i (l.length - 1) hi hj
  · exact List.Perm.refl l

/-! ## Association-list lookup lemmas -/

theorem lookup_filter_key {β : Type} (l : List (String × β)) (name k : String) :
    (l.filter (fun p => !(p.1 == name))).lookup k =
      if k = name then none else l.lookup k := by
  induction l with
  | nil => simp [List.lookup]
  | cons a t ih =>
    by_cases ha : a.1 = name
    · have : (!(a.1 == name)) = false := by simp [ha]
      simp only [List.filter_cons, this, Bool.false_eq_true, if_false, ih]
      by_cases hk : k = name
      · simp [hk]
      · have : (k == a.1) = false := by simp [ha, hk]
        simp [hk, List.lookup, this]
    · have : (!(a.1 == name)) = true := by simp [ha]
      simp only [List.filter_cons, this, if_true]
      by_cases hk : k = a.1
      · have hkeq : (k == a.1) = true := by simp [hk]
        have hkn : ¬ k = name := by rw [hk]; exact ha
        simp [List.lookup, hkeq, hkn]
      · have hkeq : (k == a.1) = false := by simp [hk]
        simp only [List.lookup, hkeq, ih]

theorem lookup_append_single {β : Type} (l : List (String × β)) (k0 k : String) (v : β) :
    (l ++ [(k0, v)]).lookup k =
      match l.lookup k with
      | some w => some w
      | none => if k = k0 then some v else none := by
  induction l with
  | nil =>
    by_cases hk : k = k0
    · simp [List.lookup, hk]
    · have : (k == k0) = false := by simp [hk]
      simp [List.lookup, this, hk]
  | cons a t ih =>
    by_cases hk : k = a.1
    · have hkeq : (k == a.1) = true := by simp [hk]
      simp [List.lookup, hkeq]
    · have hkeq : (k == a.1) = false := by simp [hk]
      simp only [List.cons_append, List.lookup, hkeq, List.append_eq, ih]

theorem lookup_mem {β : Type} {l : List (String × β)} {k : String} {v : β}
    (h : l.lookup k = some v) : (k, v) ∈ l := by
  induction l with
  | nil => simp [List.lookup] at h
  | cons a t ih =>
    rcases a with ⟨k1, v1⟩
    by_cases hk : k = k1
    · have hkeq : (k == k1) = true := by simp [hk]
      simp [List.lookup, hkeq] at h
      simp [hk, h]
    · have hkeq : (k == k1) = false := by simp [hk]
      simp only [List.lookup, hkeq] at h
      exact List.mem_cons_of_mem _ (ih h)

/-- `find?` returns the unique element satisfying the predicate. -/
theorem find_eq_some_of_unique {α : Type} {l : List α} {p : α → Bool} {a : α}
    (ha : a ∈ l) (hp : p a = true) (huniq : ∀ x ∈ l, p x = true → x = a) :
    l.find? p = some a := by
  have hs : (l.find? p).isSome := List.find?_isSome.mpr ⟨a, ha, hp⟩
  rcases Option.isSome_iff_exists.mp hs with ⟨y, hy⟩
  have hpy := List.find?_some hy
  have hmy := List.mem_of_find?_eq_some hy
  rw [hy, huniq y hmy hpy]

/-! ## The membership invariant of claim C3 -/

/-- The suspect-table invariant: node names are unique, a node is
SUSPECT exactly when its name is a key of the suspect-record table
(spec: `∀ node x: x.status == SUSPECT ⇔ x.name ∈ suspectRecords`), and
every key of the table names a member.  The two auxiliary conjuncts are
facts the code maintains alongside the claimed biconditional and are
needed for it to be inductive. -/
def SuspectInvariant (nm : NodeManager) : Prop :=
  (nm.nodes.map Node.name).Nodup ∧
  (∀ node ∈ nm.nodes,
    node.status = NODE_STATUS_SUSPECT ↔ (nm.suspect_nodes.lookup node.name).isSome = true) ∧
  (∀ p ∈ nm.suspect_nodes, ∃ node ∈ nm.nodes, node.name = p.1)

instance (nm : NodeManager) : Decidable (SuspectInvariant nm) := by
  unfold SuspectInvariant
  infer_instance

/-- Basic facts about `findNode`: a found node is a member bearing the
name. -/
theorem findNode_some {nm : NodeManager} {name : String} {node : Node}
    (h : nm.findNode name = some node) : node ∈ nm.nodes ∧ node.name = name := by
  refine ⟨List.mem_of_find?_eq_some h, ?_⟩
  have := List.find?_some h
  simpa using this

/-- Basic facts about `findNode`: a failed lookup means no member bears
the name. -/
theorem findNode_none {nm : NodeManager} {name : String}
    (h : nm.findNode name = none) : ∀ node ∈ nm.nodes, node.name ≠ name := by
  intro node hmem
  have := List.find?_eq_none.mp h node hmem
  simpa using this

/-- Under the invariant, a SUSPECT key of the table is absent exactly
when no member bears the name. -/
theorem lookup_none_of_findNode_none {nm : NodeManager} {name : String}
    (hinv : SuspectInvariant nm) (h : ∀ node ∈ nm.nodes, node.name ≠ name) :
    (nm.suspect_nodes.lookup name).isSome = false := by
  cases hv : nm.suspect_nodes.lookup name with
  | none => rfl
  | some v =>
    rcases hinv.2.2 (name, v) (lookup_mem hv) with ⟨node, hnmem, hname⟩
    exact absurd hname (h node hnmem)

/-! ## Preservation machinery -/

/-- Updating nodes by name with a name-preserving function keeps the
name list. -/
theorem map_name_update {l : List Node} {name : String} {upd : Node}
    (hname : upd.name = name) :
    (l.map (fun y => if y.name == name then upd else y)).map Node.name =
      l.map Node.name := by
  rw [List.map_map]
  apply List.map_congr_left
  intro y _
  by_cases h : (y.name == name) = true
  · have : y.name = name := by simpa using h
    simp [Function.comp, h, hname, this]
  · have : (y.name == name) = false := by revert h; cases (y.name == name) <;> simp
    simp [Function.comp, this]

/-- Two successive by-name replacements collapse to the last one when
the first replacement keeps the name. -/
theorem map_update_twice (l : List Node) (name : String) (b a : Node)
    (hb : b.name = name) :
    (l.map (fun y => if y.name == name then b else y)).map
        (fun z => if z.name == name then a else z) =
      l.map (fun y => if y.name == name then a else y) := by
  rw [List.map_map]
  apply List.map_congr_left
  intro y _
  by_cases h : (y.name == name) = true
  · simp [Function.comp, h, hb]
  · have : (y.name == name) = false := by revert h; cases (y.name == name) <;> simp
    simp [Function.comp, this]

/-- Workhorse: the invariant survives a state whose node list is a
by-name replacement and whose suspect table changed only at that name,
consistently with the new status. -/
theorem invariant_components {nm nm2 : NodeManager} {name : String} {upd : Node}
    (hinv : SuspectInvariant nm)
    (hnodes : nm2.nodes = nm.nodes.map (fun y => if y.name == name then upd else y))
    (hname : upd.name = name)
    (hstatus : upd.status = NODE_STATUS_SUSPECT ↔
      (nm2.suspect_nodes.lookup name).isSome = true)
    (hother : ∀ k, k ≠ name →
      nm2.suspect_nodes.lookup k = nm.suspect_nodes.lookup k)
    (hkeys : ∀ p ∈ nm2.suspect_nodes, p.1 = name ∨ p ∈ nm.suspect_nodes)
    (hmem : ∃ y ∈ nm.nodes, y.name = name) :
    SuspectInvariant nm2 := by
  refine ⟨?_, ?_, ?_⟩
  · rw [hnodes, map_name_update hname]
    exact hinv.1
  · intro x hx
    rw [hnodes] at hx
    rcases List.mem_map.mp hx with ⟨y, hy, hxy⟩
    by_cases h : (y.name == name) = true
    · have heq : y.name = name := by simpa using h
      rw [h] at hxy
      simp only [if_true] at hxy
      subst hxy
      rw [hname]
      exact hstatus
    · have hbf : (y.name == name) = false := by revert h; cases (y.name == name) <;> simp
      rw [hbf] at hxy
      simp only [Bool.false_eq_true, if_false] at hxy
      subst hxy
      have hne : y.name ≠ name := by simpa using hbf
      rw [hother y.name hne]
      exact hinv.2.1 y hy
  · intro p hp
    rcases hkeys p hp with h | h
    · rcases hmem with ⟨y, hy, hyname⟩
      refine ⟨upd, ?_, by rw [hname, h]⟩
      rw [hnodes]
      have hmm := List.mem_map_of_mem (fun z => if z.name == name then upd else z) hy
      simpa [hyname] using hmm
    · rcases hinv.2.2 p h with ⟨y, hy, hyname⟩
      refine ⟨if y.name == name then upd else y, ?_, ?_⟩
      · rw [hnodes]
        exact List.mem_map_of_mem _ hy
      · by_cases hb : (y.name == name) = true
        · have : y.name = name := by simpa using hb
          rw [hb]
          simp only [if_true, hname]
          rw [← this, hyname]
        · have hbf : (y.name == name) = false := by revert hb; cases (y.name == name) <;> simp
          rw [hbf]
          simpa using hyname

/-- Inserting a freshly discovered node (status DEAD) and swapping it
randomly preserves the invariant. -/
theorem invariant_new_node (nm : NodeManager) (name host : String) (port : Int)
    (i : Nat) (hinv : SuspectInvariant nm) (hf : nm.findNode name = none) :
    SuspectInvariant
      { nm with nodes := swapNodes (nm.nodes ++ [Node.new name host port]) i } := by
  have hperm := swapNodes_perm (nm.nodes ++ [Node.new name host port]) i
  have hfresh := findNode_none hf
  refine ⟨?_, ?_, ?_⟩
  · have hpm := hperm.map Node.name
    apply hpm.nodup_iff.mpr
    rw [List.map_append]
    apply List.Nodup.append hinv.1 (by simp)
    intro a ha hb
    rcases List.mem_map.mp ha with ⟨y, hy, hyname⟩
    simp only [List.map_cons, List.map_nil, List.mem_singleton] at hb
    have : (Node.new name host port).name = name := rfl
    rw [this] at hb
    exact hfresh y hy (by rw [hyname, hb])
  · intro x hx
    have hx2 := hperm.mem_iff.mp hx
    rcases List.mem_append.mp hx2 with h | h
    · exact hinv.2.1 x h
    · simp only [List.mem_singleton] at h
      subst h
      have h1 : (Node.new name host port).status = NODE_STATUS_DEAD := rfl
      have h2 : (Node.new name host port).name = name := rfl
      rw [h1, h2]
      have h3 : (nm.suspect_nodes.lookup name).isSome = false :=
        lookup_none_of_findNode_none hinv hfresh
      constructor
      · intro hc
        exact absurd hc (by decide)
      · intro hc
        rw [h3] at hc
        exact absurd hc (by decide)
  · intro p hp
    rcases hinv.2.2 p hp with ⟨y, hy, hyname⟩
    exact ⟨y, hperm.mem_iff.mpr (List.mem_append.mpr (Or.inl hy)), hyname⟩

/-- After inserting a fresh node named `name`, looking it up finds
exactly the inserted record. -/
theorem findNode_after_insert (nm : NodeManager) (name host : String) (port : Int)
    (i : Nat) (hf : nm.findNode name = none) :
    ({ nm with nodes := swapNodes (nm.nodes ++ [Node.new name host port]) i } :
      NodeManager).findNode name = some (Node.new name host port) := by
  have hperm := swapNodes_perm (nm.nodes ++ [Node.new name host port]) i
  have hfresh := findNode_none hf
  apply find_eq_some_of_unique
  · exact hperm.mem_iff.mpr (List.mem_append.mpr (Or.inr (by simp)))
  · simp [Node.new]
  · intro x hx hpx
    have hx2 := hperm.mem_iff.mp hx
    rcases List.mem_append.mp hx2 with h | h
    · have : x.name = name := by simpa using hpx
      exact absurd this (hfresh x h)
    · simpa using h

/-- `on_node_alive` preserves the suspect-table invariant. -/
theorem on_node_alive_preserves {nm nm2 : NodeManager} {randIdx : Nat}
    {name : String} {incarnation : Int} {host : String} {port : Int}
    {metadata : Metadata} {b : Bool} {effs : List Effect}
    (hinv : SuspectInvariant nm)
    (heq : on_node_alive nm randIdx name incarnation host port metadata b =
      Except.ok (nm2, effs)) :
    SuspectInvariant nm2 := by
  unfold on_node_alive at heq
  cases hf : nm.findNode name with
  | some cur =>
    have hcur := findNode_some hf
    simp only [hf, Option.isNone_some, Bool.false_eq_true, if_false] at heq
    split_ifs at heq
    · rcases heq with ⟨rfl, rfl⟩
      exact hinv
    · rcases heq with ⟨rfl, rfl⟩
      exact hinv
    · rcases heq with ⟨rfl, rfl⟩
      exact hinv
    all_goals rename_i hs hal
    case pos =>
      -- status SUSPECT, status changed branch of the effect list
      have hsus : (nm.suspect_nodes.lookup name).isSome = true := by
        have := (hinv.2.1 cur hcur.1).mp (by simpa using hs)
        rwa [hcur.2] at this
      rcases hv : nm.suspect_nodes.lookup name with _ | v
      · rw [hv] at hsus
        simp at hsus
      · simp only [NodeManager.cancelSuspectNode, hv] at heq
        rcases heq with ⟨rfl, rfl⟩
        apply invariant_components hinv
        · rfl
        · exact hcur.2
        · rw [NodeManager.updateNode]
          simp only
          rw [lookup_filter_key]
          simp [NODE_STATUS_ALIVE, NODE_STATUS_SUSPECT]
        · intro k hk
          rw [NodeManager.updateNode]
          simp only
          rw [lookup_filter_key]
          simp [hk]
        · intro p hp
          rw [NodeManager.updateNode] at hp
          simp only at hp
          exact Or.inr (List.mem_filter.mp hp).1
        · exact ⟨cur, hcur.1, hcur.2⟩
    case neg =>
      have hsus : (nm.suspect_nodes.lookup name).isSome = true := by
        have := (hinv.2.1 cur hcur.1).mp (by simpa using hs)
        rwa [hcur.2] at this
      rcases hv : nm.suspect_nodes.lookup name with _ | v
      · rw [hv] at hsus
        simp at hsus
      · simp only [NodeManager.cancelSuspectNode, hv] at heq
        rcases heq with ⟨rfl, rfl⟩
        apply invariant_components hinv
        · rfl
        · exact hcur.2
        · rw [NodeManager.updateNode]
          simp only
          rw [lookup_filter_key]
          simp [NODE_STATUS_ALIVE, NODE_STATUS_SUSPECT]
        · intro k hk
          rw [NodeManager.updateNode]
          simp only
          rw [lookup_filter_key]
          simp [hk]
        · intro p hp
          rw [NodeManager.updateNode] at hp
          simp only at hp
          exact Or.inr (List.mem_filter.mp hp).1
        · exact ⟨cur, hcur.1, hcur.2⟩
    all_goals {
      have hnolook : (nm.suspect_nodes.lookup name).isSome = false := by
        have hnot := hinv.2.1 cur hcur.1
        rw [hcur.2] at hnot
        cases hv : nm.suspect_nodes.lookup name with
        | none => rfl
        | some v =>
          exfalso
          apply hs
          have : cur.status = NODE_STATUS_SUSPECT := hnot.mpr (by rw [hv]; rfl)
          simpa using this
      simp only [Except.ok.injEq, Prod.mk.injEq] at heq
      rcases heq with ⟨rfl, rfl⟩
      apply invariant_components hinv
      · rfl
      · exact hcur.2
      · rw [NodeManager.updateNode]
        simp only
        rw [hnolook]
        simp [NODE_STATUS_ALIVE, NODE_STATUS_SUSPECT]
      · intro k _
        rfl
      · intro p hp
        exact Or.inr hp
      · exact ⟨cur, hcur.1, hcur.2⟩ }
  | none =>
    have hfind := findNode_after_insert nm name host port randIdx hf
    have hinv1 := invariant_new_node nm name host port randIdx hinv hf
    simp only [hf, Option.isNone_none, if_true] at heq
    rw [hfind] at heq
    simp only at heq
    split_ifs at heq
    · rcases heq with ⟨rfl, rfl⟩
      exact hinv1
    · rcases heq with ⟨rfl, rfl⟩
      exact hinv1
    · rcases heq with ⟨rfl, rfl⟩
      exact hinv1
    all_goals rename_i hs hal
    case pos =>
      exfalso
      simp [Node.new, NODE_STATUS_DEAD, NODE_STATUS_SUSPECT] at hs
    case neg =>
      exfalso
      simp [Node.new, NODE_STATUS_DEAD, NODE_STATUS_SUSPECT] at hs
    all_goals {
      have hnolook : (nm.suspect_nodes.lookup name).isSome = false :=
        lookup_none_of_findNode_none hinv (findNode_none hf)
      simp only [Except.ok.injEq, Prod.mk.injEq] at heq
      rcases heq with ⟨rfl, rfl⟩
      apply invariant_components hinv1
      · rfl
      · rfl
      · rw [NodeManager.updateNode]
        simp only
        rw [hnolook]
        simp [NODE_STATUS_ALIVE, NODE_STATUS_SUSPECT]
      · intro k _
        rfl
      · intro p hp
        exact Or.inr hp
      · refine ⟨Node.new name host port, ?_, rfl⟩
        exact (swapNodes_perm _ _).mem_iff.mpr (List.mem_append.mpr (Or.inr (by simp))) }

/-- `_refute` preserves the suspect-table invariant (it only changes the
local node incarnation and the sequence counter). -/
theorem refute_preserves {nm nm2 : NodeManager} {effs : List Effect}
    (hinv : SuspectInvariant nm) (heq : nm.refute = Except.ok (nm2, effs)) :
    SuspectInvariant nm2 := by
  unfold NodeManager.refute at heq
  cases hl : nm.localNode with
  | none => simp [hl] at heq
  | some ln =>
    have hmem : ln ∈ nm.nodes := by
      unfold NodeManager.localNode at hl
      cases hn : nm.local_node_name with
      | none => rw [hn] at hl; simp at hl
      | some n =>
        rw [hn] at hl
        exact (findNode_some hl).1
    simp only [hl] at heq
    rcases heq with ⟨rfl, rfl⟩
    have hinv2 : SuspectInvariant { nm with local_node_seq := nm.local_node_seq + 1 } :=
      ⟨hinv.1, hinv.2.1, hinv.2.2⟩
    apply invariant_components hinv2
    · rfl
    · rfl
    · exact hinv.2.1 ln hmem
    · intro k _
      rfl
    · intro p hp
      exact Or.inr hp
    · exact ⟨ln, hmem, rfl⟩

/-- `on_node_dead` preserves the suspect-table invariant. -/
theorem on_node_dead_preserves {nm nm2 : NodeManager} {name : String}
    {incarnation : Int} {effs : List Effect} (hinv : SuspectInvariant nm)
    (heq : on_node_dead nm name incarnation = Except.ok (nm2, effs)) :
    SuspectInvariant nm2 := by
  unfold on_node_dead at heq
  cases hf : nm.findNode name with
  | none =>
    simp only [hf] at heq
    rcases heq with ⟨rfl, rfl⟩
    exact hinv
  | some cur =>
    have hcur := findNode_some hf
    simp only [hf] at heq
    split_ifs at heq with h1 h2 h3
    · rcases heq with ⟨rfl, rfl⟩
      exact hinv
    · rcases heq with ⟨rfl, rfl⟩
      exact hinv
    · exact refute_preserves hinv heq
    all_goals rename_i hs hd
    case pos =>
      have hsus : (nm.suspect_nodes.lookup name).isSome = true := by
        have := (hinv.2.1 cur hcur.1).mp (by simpa using hs)
        rwa [hcur.2] at this
      rcases hv : nm.suspect_nodes.lookup name with _ | v
      · rw [hv] at hsus
        simp at hsus
      · split at heq
        · rename_i e hbad
          simp [NodeManager.cancelSuspectNode, hv] at hbad
        · rename_i nmC hC
          simp only [NodeManager.cancelSuspectNode, hv, Except.ok.injEq] at hC
          subst hC
          split at heq
          · simp at heq
          · rename_i sender hsender
            rcases heq with ⟨rfl, rfl⟩
            apply invariant_components hinv
            · rfl
            · exact hcur.2
            · rw [NodeManager.updateNode]
              simp only
              rw [lookup_filter_key]
              simp [NODE_STATUS_DEAD, NODE_STATUS_SUSPECT]
            · intro k hk
              rw [NodeManager.updateNode]
              simp only
              rw [lookup_filter_key]
              simp [hk]
            · intro p hp
              rw [NodeManager.updateNode] at hp
              simp only at hp
              exact Or.inr (List.mem_filter.mp hp).1
            · exact ⟨cur, hcur.1, hcur.2⟩
    case neg =>
      have hsus : (nm.suspect_nodes.lookup name).isSome = true := by
        have := (hinv.2.1 cur hcur.1).mp (by simpa using hs)
        rwa [hcur.2] at this
      rcases hv : nm.suspect_nodes.lookup name with _ | v
      · rw [hv] at hsus
        simp at hsus
      · split at heq
        · rename_i e hbad
          simp [NodeManager.cancelSuspectNode, hv] at hbad
        · rename_i nmC hC
          simp only [NodeManager.cancelSuspectNode, hv, Except.ok.injEq] at hC
          subst hC
          split at heq
          · simp at heq
          · rename_i sender hsender
            rcases heq with ⟨rfl, rfl⟩
            apply invariant_components hinv
            · rfl
            · exact hcur.2
            · rw [NodeManager.updateNode]
              simp only
              rw [lookup_filter_key]
              simp [NODE_STATUS_DEAD, NODE_STATUS_SUSPECT]
            · intro k hk
              rw [NodeManager.updateNode]
              simp only
              rw [lookup_filter_key]
              simp [hk]
            · intro p hp
              rw [NodeManager.updateNode] at hp
              simp only at hp
              exact Or.inr (List.mem_filter.mp hp).1
            · exact ⟨cur, hcur.1, hcur.2⟩
    all_goals {
      have hnolook : (nm.suspect_nodes.lookup name).isSome = false := by
        have hnot := hinv.2.1 cur hcur.1
        rw [hcur.2] at hnot
        cases hv : nm.suspect_nodes.lookup name with
        | none => rfl
        | some v =>
          exfalso
          apply hs
          have : cur.status = NODE_STATUS_SUSPECT := hnot.mpr (by rw [hv]; rfl)
          simpa using this
      split at heq
      · rename_i e hbad
        simp at hbad
      · rename_i nmC hC
        simp only [Except.ok.injEq] at hC
        subst hC
        split at heq
        · simp at heq
        · rename_i sender hsender
          rcases heq with ⟨rfl, rfl⟩
          apply invariant_components hinv
          · rfl
          · exact hcur.2
          · rw [NodeManager.updateNode]
            simp only
            rw [hnolook]
            simp [NODE_STATUS_DEAD, NODE_STATUS_SUSPECT]
          · intro k _
            rfl
          · intro p hp
            exact Or.inr hp
          · exact ⟨cur, hcur.1, hcur.2⟩ }

/-- `_create_suspect_node` never changes the node list. -/
theorem createSuspectNode_nodes (cfg : Config) (nm : NodeManager) (name : String) :
    (nm.createSuspectNode cfg name).nodes = nm.nodes := by
  unfold NodeManager.createSuspectNode
  split <;> rfl

/-- After `_create_suspect_node` the name is recorded. -/
theorem createSuspectNode_lookup_self (cfg : Config) (nm : NodeManager) (name : String) :
    ((nm.createSuspectNode cfg name).suspect_nodes.lookup name).isSome = true := by
  unfold NodeManager.createSuspectNode
  split
  · rename_i h
    exact h
  · rename_i h
    simp only
    rw [lookup_append_single]
    have hnone : nm.suspect_nodes.lookup name = none := by
      cases hv : nm.suspect_nodes.lookup name with
      | none => rfl
      | some v => exact absurd (by rw [hv]; rfl) h
    rw [hnone]
    simp

/-- `_create_suspect_node` leaves other keys untouched. -/
theorem createSuspectNode_lookup_other (cfg : Config) (nm : NodeManager)
    (name k : String) (hk : k ≠ name) :
    (nm.createSuspectNode cfg name).suspect_nodes.lookup k =
      nm.suspect_nodes.lookup k := by
  unfold NodeManager.createSuspectNode
  split
  · rfl
  · simp only
    rw [lookup_append_single]
    cases hv : nm.suspect_nodes.lookup k with
    | none => simp [hk]
    | some w => rfl

/-- Keys after `_create_suspect_node` are the new name or old keys. -/
theorem createSuspectNode_mem (cfg : Config) (nm : NodeManager) (name : String)
    (p : String × SuspectNode) (hp : p ∈ (nm.createSuspectNode cfg name).suspect_nodes) :
    p.1 = name ∨ p ∈ nm.suspect_nodes := by
  unfold NodeManager.createSuspectNode at hp
  split at hp
  · exact Or.inr hp
  · simp only at hp
    rcases List.mem_append.mp hp with h | h
    · exact Or.inr h
    · simp only [List.mem_singleton] at h
      subst h
      exact Or.inl rfl

/-- Node list of the suspect-accept path: update, create record, update
again collapses to a single by-name replacement. -/
theorem suspect_accept_nodes (cfg : Config) (nm : NodeManager) (name : String)
    (u1 u2 : Node) (h1 : u1.name = name) :
    ((((nm.updateNode name (fun _ => u1)).createSuspectNode cfg name).updateNode
        name (fun _ => u2)).nodes) =
      nm.nodes.map (fun y => if y.name == name then u2 else y) := by
  show ((((nm.updateNode name (fun _ => u1)).createSuspectNode cfg name).nodes).map
      (fun node => if node.name == name then u2 else node)) = _
  rw [createSuspectNode_nodes]
  exact map_update_twice nm.nodes name u1 u2 h1

/-- `on_node_suspect` preserves the suspect-table invariant. -/
theorem on_node_suspect_preserves {cfg : Config} {nm nm2 : NodeManager}
    {name : String} {incarnation : Int} {metadata : Metadata} {effs : List Effect}
    (hinv : SuspectInvariant nm)
    (heq : on_node_suspect cfg nm name incarnation metadata = Except.ok (nm2, effs)) :
    SuspectInvariant nm2 := by
  unfold on_node_suspect at heq
  cases hf : nm.findNode name with
  | none =>
    simp only [hf] at heq
    rcases heq with ⟨rfl, rfl⟩
    exact hinv
  | some cur =>
    have hcur := findNode_some hf
    simp only [hf] at heq
    split_ifs at heq with h1 h2 h3
    · rcases heq with ⟨rfl, rfl⟩
      exact hinv
    · rcases heq with ⟨rfl, rfl⟩
      exact hinv
    · exact refute_preserves hinv heq
    all_goals {
      split at heq
      · simp at heq
      · rename_i sender hsender
        rcases heq with ⟨rfl, rfl⟩
        apply invariant_components hinv
        · exact suspect_accept_nodes cfg nm name _ _ hcur.2
        · exact hcur.2
        · constructor
          · intro _
            exact createSuspectNode_lookup_self cfg _ name
          · intro _
            rfl
        · intro k hk
          exact createSuspectNode_lookup_other cfg _ name k hk
        · intro p hp
          have h2 := createSuspectNode_mem cfg _ name p hp
          exact h2
        · exact ⟨cur, hcur.1, hcur.2⟩ }

/-- Suspicion-timer expiry preserves the suspect-table invariant. -/
theorem onSuspectTimerExpiry_preserves {nm nm2 : NodeManager} {name : String}
    {effs : List Effect} (hinv : SuspectInvariant nm)
    (heq : onSuspectTimerExpiry nm name = Except.ok (nm2, effs)) :
    SuspectInvariant nm2 := by
  unfold onSuspectTimerExpiry at heq
  cases hf : nm.findNode name with
  | none =>
    simp only [hf] at heq
    rcases heq with ⟨rfl, rfl⟩
    exact hinv
  | some node =>
    simp only [hf] at heq
    exact on_node_dead_preserves hinv heq

/-! ## Claim C3 -/

/-- C3: at every quiescent moment, for every node `x` of the membership,
`x.status == SUSPECT` holds iff `x.name` is a key of the suspect-record
table, and this biconditional (as part of `SuspectInvariant`, which
bundles it with unique names and table keys naming members — facts the
code maintains that make the biconditional inductive) is preserved by
every completed (non-raising) call of `on_node_alive`,
`on_node_suspect`, `on_node_dead`, and by suspicion-timer expiry. -/
theorem C3_suspect_record_invariant (cfg : Config) (nm : NodeManager)
    (hinv : SuspectInvariant nm) :
    (∀ node ∈ nm.nodes,
      node.status = NODE_STATUS_SUSPECT ↔
        (nm.suspect_nodes.lookup node.name).isSome = true) ∧
    (∀ randIdx name incarnation host port metadata b nm2 effs,
      on_node_alive nm randIdx name incarnation host port metadata b =
        Except.ok (nm2, effs) → SuspectInvariant nm2) ∧
    (∀ name incarnation metadata nm2 effs,
      on_node_suspect cfg nm name incarnation metadata = Except.ok (nm2, effs) →
      SuspectInvariant nm2) ∧
    (∀ name incarnation nm2 effs,
      on_node_dead nm name incarnation = Except.ok (nm2, effs) →
      SuspectInvariant nm2) ∧
    (∀ name nm2 effs,
      onSuspectTimerExpiry nm name = Except.ok (nm2, effs) →
      SuspectInvariant nm2) :=
  ⟨hinv.2.1,
   fun _ _ _ _ _ _ _ _ _ h => on_node_alive_preserves hinv h,
   fun _ _ _ _ _ h => on_node_suspect_preserves hinv h,
   fun _ _ _ _ h => on_node_dead_preserves hinv h,
   fun _ _ _ h => onSuspectTimerExpiry_preserves hinv h⟩

/-- C3 witness: a concrete two-node cluster satisfies the invariant, and
a completed `on_node_dead` call on it yields a state that satisfies it
again. -/
theorem C3_suspect_record_invariant_witness :
    SuspectInvariant
      { nodes := [{ name := "a", host := "h", port := 1, incarnation := 1,
                    version := 1, metadata := [], status := "ALIVE" },
                  { name := "b", host := "h", port := 2, incarnation := 1,
                    version := 1, metadata := [], status := "DEAD" }],
        suspect_nodes := [], local_node_name := some "a", local_node_seq := 1,
        leaving := false } :=
  ((C3_suspect_record_invariant
      { suspicion_min_timeout_multi := 4, suspicion_max_timeout_multi := 6,
        probe_interval := 1, log10 := fun _ => 1 }
      { nodes := [{ name := "a", host := "h", port := 1, incarnation := 1,
                    version := 1, metadata := [], status := "ALIVE" },
                  { name := "b", host := "h", port := 2, incarnation := 1,
                    version := 1, metadata := [], status := "ALIVE" }],
        suspect_nodes := [], local_node_name := some "a", local_node_seq := 1,
        leaving := false }
      (by decide)).2.2.2.1 "b" 1
      { nodes := [{ name := "a", host := "h", port := 1, incarnation := 1,
                    version := 1, metadata := [], status := "ALIVE" },
                  { name := "b", host := "h", port := 2, incarnation := 1,
                    version := 1, metadata := [], status := "DEAD" }],
        suspect_nodes := [], local_node_name := some "a", local_node_seq := 1,
        leaving := false }
      [Effect.broadcastDead "b" 1 "a", Effect.emit "node.dead" "b"]
      rfl)


/-! ## Claim C2 -/

/-- C2 counterexample: for the local node an incoming ALIVE with an
incarnation equal to the current one (not strictly greater) is accepted:
the metadata is merged and an ALIVE broadcast is enqueued, so the state
does not stay unchanged. -/
theorem C2_counterexample :
    on_node_alive
      { nodes := [{ name := "a", host := "h", port := 1, incarnation := 5,
                    version := 1, metadata := [], status := "ALIVE" }],
        suspect_nodes := [], local_node_name := some "a", local_node_seq := 5,
        leaving := false }
      0 "a" 5 "h" 1 [("k", "v")] false =
      Except.ok
        ({ nodes := [{ name := "a", host := "h", port := 1, incarnation := 5,
                       version := 1, metadata := [("k", "v")], status := "ALIVE" }],
           suspect_nodes := [], local_node_name := some "a", local_node_seq := 5,
           leaving := false },
         [Effect.broadcastAlive "a" "h" 1 5 [("k", "v")]]) ∧
    decide ((5 : Int) > 5) = false ∧
    decide (([("k", "v")] : Metadata) = []) = false := by
  refine ⟨rfl, by decide, by decide⟩

/-- C2 (amended): for a node already in the membership `on_node_alive`
accepts an incoming ALIVE only when the incarnation is strictly greater
than the current one for non-local nodes, and only when it is greater
than or equal for the local node; otherwise the state is unchanged and
no broadcast or event is produced. -/
theorem C2_incarnation_gate (nm : NodeManager) (randIdx : Nat) (name : String)
    (incarnation : Int) (host : String) (port : Int) (metadata : Metadata)
    (b : Bool) (cur : Node) (hf : nm.findNode name = some cur) :
    (nm.local_node_name ≠ some name → incarnation ≤ cur.incarnation →
      on_node_alive nm randIdx name incarnation host port metadata b =
        Except.ok (nm, [])) ∧
    (nm.local_node_name = some name → incarnation < cur.incarnation →
      on_node_alive nm randIdx name incarnation host port metadata b =
        Except.ok (nm, [])) := by
  constructor
  · intro hl hinc
    unfold on_node_alive
    simp only [hf, Option.isNone_some, Bool.false_eq_true, if_false]
    split_ifs with hc hr1 hr2
    · rfl
    · rfl
    · exact absurd ⟨hl, hinc⟩ hr1
    all_goals exact absurd ⟨hl, hinc⟩ hr1
  · intro hl hinc
    unfold on_node_alive
    simp only [hf, Option.isNone_some, Bool.false_eq_true, if_false]
    split_ifs with hc hr1 hr2
    · rfl
    · rfl
    · rfl
    all_goals exact absurd ⟨hl, hinc⟩ hr2

/-- C2 witness: a stale ALIVE (equal incarnation) about a non-local
member leaves the state unchanged. -/
theorem C2_incarnation_gate_witness :
    on_node_alive
      { nodes := [{ name := "a", host := "h", port := 1, incarnation := 1,
                    version := 1, metadata := [], status := "ALIVE" },
                  { name := "b", host := "h", port := 2, incarnation := 5,
                    version := 1, metadata := [], status := "ALIVE" }],
        suspect_nodes := [], local_node_name := some "a", local_node_seq := 1,
        leaving := false }
      0 "b" 5 "h" 2 [] false =
      Except.ok
        ({ nodes := [{ name := "a", host := "h", port := 1, incarnation := 1,
                       version := 1, metadata := [], status := "ALIVE" },
                     { name := "b", host := "h", port := 2, incarnation := 5,
                       version := 1, metadata := [], status := "ALIVE" }],
           suspect_nodes := [], local_node_name := some "a", local_node_seq := 1,
           leaving := false }, []) :=
  (C2_incarnation_gate
      { nodes := [{ name := "a", host := "h", port := 1, incarnation := 1,
                    version := 1, metadata := [], status := "ALIVE" },
                  { name := "b", host := "h", port := 2, incarnation := 5,
                    version := 1, metadata := [], status := "ALIVE" }],
        suspect_nodes := [], local_node_name := some "a", local_node_seq := 1,
        leaving := false }
      0 "b" 5 "h" 2 [] false
      { name := "b", host := "h", port := 2, incarnation := 5, version := 1,
        metadata := [], status := "ALIVE" } rfl).1 (by decide) (by decide)

/-! ## Claim C9 -/

/-- C9: an `on_node_alive` call for an unknown name whose incarnation
fails the freshness test against the freshly created record (incarnation
at most 0 for a non-local name, below 0 for the local name) still
inserts the node into the membership — the list grows by one and the
name lookup finds it — but leaves it with status DEAD and incarnation 0,
and enqueues no broadcast and emits no event. -/
theorem C9_dead_discovery (nm : NodeManager) (randIdx : Nat) (name : String)
    (incarnation : Int) (host : String) (port : Int) (metadata : Metadata)
    (hf : nm.findNode name = none)
    (hrej : (nm.local_node_name ≠ some name ∧ incarnation ≤ 0) ∨
      (nm.local_node_name = some name ∧ incarnation < 0)) :
    on_node_alive nm randIdx name incarnation host port metadata false =
      Except.ok
        ({ nm with nodes := swapNodes (nm.nodes ++ [Node.new name host port]) randIdx },
         []) ∧
    ({ nm with nodes := swapNodes (nm.nodes ++ [Node.new name host port]) randIdx } :
      NodeManager).nodes.length = nm.nodes.length + 1 ∧
    ({ nm with nodes := swapNodes (nm.nodes ++ [Node.new name host port]) randIdx } :
      NodeManager).findNode name = some (Node.new name host port) ∧
    (Node.new name host port).status = NODE_STATUS_DEAD ∧
    (Node.new name host port).incarnation = 0 := by
  refine ⟨?_, ?_, findNode_after_insert nm name host port randIdx hf, rfl, rfl⟩
  · unfold on_node_alive
    have hins := findNode_after_insert nm name host port randIdx hf
    simp only [hf, Option.isNone_none, if_true, hins]
    rcases hrej with ⟨hl, hinc⟩ | ⟨hl, hinc⟩
    · rw [if_neg (by simp [Node.new]), if_pos ⟨hl, by simpa [Node.new] using hinc⟩]
    · rw [if_neg (by simp [Node.new]), if_neg (fun hcon => hcon.1 hl),
        if_pos ⟨hl, by simpa [Node.new] using hinc⟩]
  · rw [(swapNodes_perm _ _).length_eq]
    simp

/-- C9 witness: discovering node `x` with incarnation 0 in a one-node
cluster grows the membership to two, with `x` DEAD at incarnation 0 and
no effects. -/
theorem C9_dead_discovery_witness :
    on_node_alive
      { nodes := [{ name := "a", host := "h", port := 1, incarnation := 1,
                    version := 1, metadata := [], status := "ALIVE" }],
        suspect_nodes := [], local_node_name := some "a", local_node_seq := 1,
        leaving := false }
      0 "x" 0 "h2" 7 [] false =
      Except.ok
        ({ nodes := swapNodes
              ([{ name := "a", host := "h", port := 1, incarnation := 1,
                  version := 1, metadata := [], status := "ALIVE" }] ++
                [Node.new "x" "h2" 7]) 0,
           suspect_nodes := [], local_node_name := some "a", local_node_seq := 1,
           leaving := false }, []) ∧
    (Node.new "x" "h2" 7).status = NODE_STATUS_DEAD :=
  ⟨(C9_dead_discovery
      { nodes := [{ name := "a", host := "h", port := 1, incarnation := 1,
                    version := 1, metadata := [], status := "ALIVE" }],
        suspect_nodes := [], local_node_name := some "a", local_node_seq := 1,
        leaving := false }
      0 "x" 0 "h2" 7 [] rfl (Or.inl ⟨by decide, le_refl 0⟩)).1,
   rfl⟩

/-! ## Claim C10 -/

/-- Loop invariant of `select_random_nodes_go`: iteration count bounded
by the remaining counter budget, result duplicate-free, bounded by `k`,
and every element either carried over or produced by the choice oracle,
satisfying the predicate when one is supplied. -/
theorem select_random_nodes_go_spec {α : Type} [DecidableEq α] (pick : Nat → α)
    (pred : Option (α → Bool)) (len k : Nat) :
    ∀ (fuel c : Nat) (selected : List α), 3 * len + 1 - c ≤ fuel →
      selected.Nodup →
      (∀ x ∈ selected, ∀ q, pred = some q → q x = true) →
      selected.length ≤ k →
      (select_random_nodes_go pick pred len k c selected).2 ≤ 3 * len + 1 - c ∧
      (select_random_nodes_go pick pred len k c selected).1.Nodup ∧
      (select_random_nodes_go pick pred len k c selected).1.length ≤ k ∧
      (∀ x ∈ (select_random_nodes_go pick pred len k c selected).1,
        (x ∈ selected ∨ ∃ j, x = pick j) ∧ ∀ q, pred = some q → q x = true) := by
  intro fuel
  induction fuel with
  | zero =>
    intro c selected hfuel hnd hpred hlen
    have hguard : ¬ (selected.length < k ∧ c ≤ 3 * len) := by omega
    rw [select_random_nodes_go, dif_neg hguard]
    refine ⟨Nat.zero_le _, hnd, hlen, ?_⟩
    intro x hx
    exact ⟨Or.inl hx, hpred x hx⟩
  | succ n ih =>
    intro c selected hfuel hnd hpred hlen
    rw [select_random_nodes_go]
    by_cases hguard : selected.length < k ∧ c ≤ 3 * len
    · rw [dif_pos hguard]
      dsimp only
      by_cases hmem : selected.contains (pick c)
      · simp only [hmem, if_true]
        have H := ih (c + 1) selected (by omega) hnd hpred hlen
        refine ⟨by omega, H.2.1, H.2.2.1, ?_⟩
        intro x hx
        exact H.2.2.2 x hx
      · have hnotmem : pick c ∉ selected := by simpa using hmem
        have hmemf : selected.contains (pick c) = false := by
          revert hmem; cases selected.contains (pick c) <;> simp
        simp only [hmemf, Bool.false_eq_true, if_false]
        have happly : ∀ (next : List α), next.Nodup →
            (∀ x ∈ next, ∀ q, pred = some q → q x = true) →
            next.length ≤ k →
            (∀ x ∈ next, x ∈ selected ∨ x = pick c) →
            (select_random_nodes_go pick pred len k (c + 1) next).2 + 1 ≤
              3 * len + 1 - c ∧
            (select_random_nodes_go pick pred len k (c + 1) next).1.Nodup ∧
            (select_random_nodes_go pick pred len k (c + 1) next).1.length ≤ k ∧
            (∀ x ∈ (select_random_nodes_go pick pred len k (c + 1) next).1,
              (x ∈ selected ∨ ∃ j, x = pick j) ∧ ∀ q, pred = some q → q x = true) := by
          intro next hnd2 hpred2 hlen2 hsub
          have H := ih (c + 1) next (by omega) hnd2 hpred2 hlen2
          refine ⟨by omega, H.2.1, H.2.2.1, ?_⟩
          intro x hx
          rcases H.2.2.2 x hx with ⟨hm, hq⟩
          refine ⟨?_, hq⟩
          rcases hm with hm | hm
          · rcases hsub x hm with h | h
            · exact Or.inl h
            · exact Or.inr ⟨c, h⟩
          · exact Or.inr hm
        cases pred with
        | none =>
          exact happly (selected ++ [pick c])
            (by simp [List.nodup_append, hnd, hnotmem])
            (by intro x hx q hq; cases hq)
            (by simp only [List.length_append, List.length_singleton]; omega)
            (by intro x hx
                rcases List.mem_append.mp hx with h | h
                · exact Or.inl h
                · exact Or.inr (by simpa using h))
        | some p =>
          by_cases hp : p (pick c) = true
          · simp only [hp, if_true]
            apply happly (selected ++ [pick c])
              (by simp [List.nodup_append, hnd, hnotmem])
            · intro x hx q hq
              obtain rfl : p = q := by injection hq
              rcases List.mem_append.mp hx with h | h
              · exact hpred x h p rfl
              · have : x = pick c := by simpa using h
                rw [this]
                exact hp
            · simp only [List.length_append, List.length_singleton]
              omega
            · intro x hx
              rcases List.mem_append.mp hx with h | h
              · exact Or.inl h
              · exact Or.inr (by simpa using h)
          · have hpf : p (pick c) = false := by
              revert hp; cases (p (pick c)) <;> simp
            simp only [hpf, Bool.false_eq_true, if_false]
            exact happly selected hnd hpred hlen (fun x hx => Or.inl hx)
    · rw [dif_neg hguard]
      refine ⟨Nat.zero_le _, hnd, hlen, ?_⟩
      intro x hx
      exact ⟨Or.inl hx, hpred x hx⟩

/-- C10: `select_random_nodes` terminates after at most
`3·len(nodes)+1` loop iterations (the `.2` component counts them) and
returns a duplicate-free list of at most `min(k, len(nodes))` elements,
each drawn from `nodes` (the choice oracle ranges over `nodes`) and each
satisfying the predicate when one is supplied. -/
theorem C10_select_random_nodes {α : Type} [DecidableEq α] (k : Nat)
    (nodes : List α) (pred : Option (α → Bool)) (pick : Nat → α)
    (hpick : ∀ c, pick c ∈ nodes) :
    (select_random_nodes k nodes pred pick).2 ≤ 3 * nodes.length + 1 ∧
    (select_random_nodes k nodes pred pick).1.Nodup ∧
    (select_random_nodes k nodes pred pick).1.length ≤ min k nodes.length ∧
    (∀ x ∈ (select_random_nodes k nodes pred pick).1,
      x ∈ nodes ∧ ∀ q, pred = some q → q x = true) := by
  have H := select_random_nodes_go_spec pick pred nodes.length
    (min k nodes.length) (3 * nodes.length + 1) 0 [] (by omega) (by simp)
    (by simp) (by simp)
  unfold select_random_nodes
  refine ⟨by simpa using H.1, H.2.1, H.2.2.1, ?_⟩
  intro x hx
  rcases H.2.2.2 x hx with ⟨hm, hq⟩
  refine ⟨?_, hq⟩
  rcases hm with h | ⟨j, rfl⟩
  · simp at h
  · exact hpick j

/-- C10 witness: a concrete run with two nodes, a constant oracle and a
trivially true predicate. -/
theorem C10_select_random_nodes_witness :
    (select_random_nodes 1 [10, 20] (some fun _ => true) (fun _ => 10)).2 ≤
        3 * ([10, 20] : List Nat).length + 1 ∧
    (select_random_nodes 1 [10, 20] (some fun _ => true) (fun _ => 10)).1.Nodup ∧
    (select_random_nodes 1 [10, 20] (some fun _ => true) (fun _ => 10)).1.length ≤
        min 1 ([10, 20] : List Nat).length ∧
    (∀ x ∈ (select_random_nodes 1 [10, 20] (some fun _ => true) (fun _ => 10)).1,
      x ∈ ([10, 20] : List Nat) ∧
        ∀ q, (some fun _ => true : Option (Nat → Bool)) = some q → q x = true) :=
  C10_select_random_nodes 1 [10, 20] (some fun _ => true) (fun _ => 10)
    (fun c => by simp)

/-- C7 witness: a concrete DEAD entry is routed to `onNodeSuspect` and
not to `onNodeDead`. -/
theorem C7_merge_remote_state_routing_witness :
    _merge_remote_state
      { node := "b", addr := { host := "h", port := 2 }, version := 1,
        incarnation := 3, status := "DEAD", metadata := [] } =
      some (NodeCall.onNodeSuspect "b" 3 []) ∧
    (_merge_remote_state
        { node := "b", addr := { host := "h", port := 2 }, version := 1,
          incarnation := 3, status := "DEAD", metadata := [] } ==
      some (NodeCall.onNodeDead "b" 3)) = false :=
  ⟨C7_merge_remote_state_routing.2.2.1 "b" { host := "h", port := 2 } 1 3 [],
   by decide⟩
